import Mathlib

set_option maxRecDepth 4000

namespace GoApiTemplate

/-! Verification of the auth subsystem of go-api-template.

Go byte strings are modelled as `List Char` (one `Char` per byte); Go
`time.Time` values are modelled as `Int` Unix seconds; Go `error` values are
modelled by the inductive `GoErr`, where `fmt.Errorf("...: %w", err)` becomes
`GoErr.wrapped msg err` and `errors.Is` becomes `errorIs`. -/

/-- Go byte strings: one `Char` per byte. -/
abbrev GoStr := List Char

/-- The sentinel error values of the auth and user packages
(`errors.New` values in service.go, paseto.go, token_utils.go.tmpl and the
user package), plus `errMsg` for ad-hoc `fmt.Errorf` errors and `wrapped`
for `fmt.Errorf("...: %w", inner)`. -/
inductive GoErr where
  | invalidCredentials
  | emailRequired
  | passwordRequired
  | passwordTooShort
  | emailNotVerified
  | invalidVerificationToken
  | tokenExpired
  | emailAlreadyVerified
  | invalidEmailFormat
  | invalidToken
  | expiredToken
  | refreshTokenNotFound
  | refreshTokenRevoked
  | refreshTokenExpired
  | passwordResetTokenNotFound
  | userNotFound
  | duplicateEmail
  | errMsg (msg : String)
  | wrapped (msg : String) (inner : GoErr)
deriving DecidableEq

/-- Go's `errors.Is`: an error "is" a target if it equals it or some error in
its unwrap chain does. -/
def errorIs : GoErr → GoErr → Bool
  | .wrapped m inner, t => decide (GoErr.wrapped m inner = t) || errorIs inner t
  | e, t => decide (e = t)

/-! ## PASETO token service (src/internal/auth/paseto.go)

The third-party `aidanwoods.dev/go-paseto` library is not part of this
repository; its v4.local envelope is modelled symbolically: an envelope is
authentic exactly when it was produced under the same symmetric key, and any
malformed or tampered blob fails authentication. -/

/-- The claims carried inside a v4.local envelope. `CreateToken` sets all
four; an arbitrary envelope may miss some. -/
structure PasetoClaims where
  user_id : Option String
  email : Option String
  iat : Option Int
  exp : Option Int
deriving DecidableEq

/-- A v4.local wire blob: either an authentic envelope under some 256-bit
key (keys modelled as `Nat`), or a malformed/tampered string. -/
inductive V4LocalToken where
  | envelope (key : Nat) (claims : PasetoClaims)
  | malformed (raw : String)
deriving DecidableEq

/-- The claims struct returned by `PasetoService.VerifyToken`. -/
structure TokenClaims where
  UserID : String
  Email : String
  IssuedAt : Int
  ExpiresAt : Int
deriving DecidableEq

/-- The parser's two failure modes: a rule failure (`paseto.RuleError`,
produced by the expiry rule) or a cryptographic/format failure. -/
inductive PasetoParseErr where
  | ruleError
  | cryptoError
deriving DecidableEq

/-- `PasetoService.CreateToken` (paseto.go:47-57): sets issued-at `now`,
expiration `now + duration`, and the `user_id`/`email` string claims, then
encrypts under the service key. -/
def CreateToken (key : Nat) (userID : String) (email : String)
    (duration : Int) (now : Int) : V4LocalToken :=
  V4LocalToken.envelope key
    { user_id := some userID, email := some email,
      iat := some now, exp := some (now + duration) }

/-- Modelled from the spec: the third-party `parser.ParseV4Local` of
`aidanwoods.dev/go-paseto` (not in this repository). Decryption and
authentication fail on a malformed blob or a key mismatch; per the spec's
token state machine, an authentic envelope whose `expiresAt` has passed
(strictly: `now >= expiresAt`) fails the default expiry rule with a
`RuleError`; an envelope with no `exp` claim passes parsing and is rejected
later by claim extraction (spec: missing required claim is Invalid). -/
def ParseV4Local (key : Nat) (now : Int) (tok : V4LocalToken) :
    Except PasetoParseErr PasetoClaims :=
  match tok with
  | .malformed _ => .error .cryptoError
  | .envelope k c =>
    if k ≠ key then .error .cryptoError
    else
      match c.exp with
      | some e => if now ≥ e then .error .ruleError else .ok c
      | none => .ok c

/-- `PasetoService.VerifyToken` (paseto.go:60-98): parse; a `RuleError`
becomes `ErrExpiredToken`, any other parse failure `ErrInvalidToken`; then
the `user_id`, `email`, issued-at and expiration claims are extracted, each
missing one yielding `ErrInvalidToken`. -/
def VerifyToken (key : Nat) (now : Int) (tok : V4LocalToken) :
    Except GoErr TokenClaims :=
  match ParseV4Local key now tok with
  | .error .ruleError => .error .expiredToken
  | .error .cryptoError => .error .invalidToken
  | .ok c =>
    match c.user_id with
    | none => .error .invalidToken
    | some uid =>
      match c.email with
      | none => .error .invalidToken
      | some em =>
        match c.iat with
        | none => .error .invalidToken
        | some ia =>
          match c.exp with
          | none => .error .invalidToken
          | some ex => .ok { UserID := uid, Email := em, IssuedAt := ia, ExpiresAt := ex }

/-! ## Redis-backed refresh-token repository
(src/unnamed/part_008, `RedisRepository`; token model src/unnamed/part_001)

The shared Redis store is modelled per key namespace as an association
list from the token hash (resp. user id) to the stored value together with
the key's absolute expiry time.  Redis guarantees that a read of a key whose
TTL has elapsed behaves as if the key were absent, so a key is *live* at
`now` exactly when `now` is before its expiry.  The three namespaces
(`refresh_token:<hash>`, `refresh_token:revoked:<hash>`,
`user_tokens:<uuid>`) are disjoint because token hashes are hex encoded
(no `:`), so they are modelled as three separate maps. -/

/-- Association-list lookup (first binding wins). -/
def lookupKey {α : Type} : List (String × α) → String → Option α
  | [], _ => none
  | (k, v) :: rest, q => if q = k then some v else lookupKey rest q

/-- Association-list upsert: replace the binding if present, else append. -/
def setKey {α : Type} : List (String × α) → String → α → List (String × α)
  | [], q, v => [(q, v)]
  | (k, w) :: rest, q, v => if q = k then (k, v) :: rest else (k, w) :: setKey rest q v

/-- The fields stored in the `refresh_token:<hash>` Redis hash. -/
structure TokenHashVal where
  user_id : String
  expires_at : Int
  created_at : Int
deriving DecidableEq

/-- The Redis keyspace used by the refresh-token subsystem: every binding
carries the key's absolute expiry (second component / `Int` field). -/
structure KV where
  tokens : List (String × TokenHashVal × Int)
  revoked : List (String × Int)
  userTokens : List (String × List String × Int)
deriving DecidableEq

/-- An empty Redis keyspace. -/
def KV.empty : KV := { tokens := [], revoked := [], userTokens := [] }

/-- Read the `refresh_token:<hash>` record if its key is live at `now`. -/
def KV.liveToken (kv : KV) (now : Int) (h : String) : Option TokenHashVal :=
  match lookupKey kv.tokens h with
  | some (v, e) => if now < e then some v else none
  | none => none

/-- Redis `TTL` of the `refresh_token:<hash>` key: remaining seconds if the
key is live, `-2` if the key does not exist (or has expired). -/
def KV.tokenTTL (kv : KV) (now : Int) (h : String) : Int :=
  match lookupKey kv.tokens h with
  | some (_, e) => if now < e then e - now else -2
  | none => -2

/-- Whether a live revocation marker `refresh_token:revoked:<hash>` exists. -/
def KV.liveRevoked (kv : KV) (now : Int) (h : String) : Bool :=
  match lookupKey kv.revoked h with
  | some e => now < e
  | none => false

/-- The live members of the `user_tokens:<uuid>` set (`SMEMBERS`; an absent
or expired key reads as the empty set). -/
def KV.liveMembers (kv : KV) (now : Int) (k : String) : List String :=
  match lookupKey kv.userTokens k with
  | some (ms, e) => if now < e then ms else []
  | none => []

/-- The deterministic parts of the environment that the Go code takes from
libraries: `hashToken` (SHA-256 hex, token_utils.go.tmpl) and the success of
`uuid.Parse` on a stored `user_id` field. -/
structure Ctx where
  hashToken : String → String
  uuidOk : String → Bool

/-- `RedisRepository.StoreRefreshToken` (part_008): fails if the expiry is
not in the future; otherwise writes the token hash record with
`user_id`/`expires_at`/`created_at` and key TTL `expiresAt - now`, and adds
the hash to the owner's `user_tokens` set, resetting that set's TTL to the
same value.  (`SADD` on an expired key starts from the empty set.) -/
def StoreRefreshToken (ctx : Ctx) (kv : KV) (now : Int) (userID : String)
    (token : String) (expiresAt : Int) : Except GoErr KV :=
  let tokenHash := ctx.hashToken token
  let ttl := expiresAt - now
  if ttl ≤ 0 then .error (.errMsg "token expiration time is in the past")
  else
    let oldMembers := kv.liveMembers now userID
    let newMembers := if tokenHash ∈ oldMembers then oldMembers else oldMembers ++ [tokenHash]
    .ok { kv with
      tokens := setKey kv.tokens tokenHash
        ({ user_id := userID, expires_at := expiresAt, created_at := now }, now + ttl),
      userTokens := setKey kv.userTokens userID (newMembers, now + ttl) }

/-- The domain refresh-token model (part_001). -/
structure RefreshToken where
  UserID : String
  TokenHash : String
  ExpiresAt : Int
  CreatedAt : Int
  RevokedAt : Option Int
deriving DecidableEq

/-- `RefreshToken.IsRevoked` (part_001): the token has a revocation time. -/
def RefreshToken.IsRevoked (rt : RefreshToken) : Bool :=
  rt.RevokedAt.isSome

/-- `RefreshToken.IsExpired` (part_001): `time.Now().After(rt.ExpiresAt)`,
i.e. strictly after the expiry instant. -/
def RefreshToken.IsExpired (rt : RefreshToken) (now : Int) : Bool :=
  now > rt.ExpiresAt

/-- `RefreshToken.IsValid` (part_001): neither revoked nor expired. -/
def RefreshToken.IsValid (rt : RefreshToken) (now : Int) : Bool :=
  !rt.IsRevoked && !rt.IsExpired now

/-- `RedisRepository.GetRefreshToken` (part_008:71-123): the revocation
marker for `hash(token)` is checked first; then the primary record is read
(`HGETALL` of a missing or expired key yields no fields, hence NotFound);
then `user_id` is parsed (`uuid.Parse` failure yields `ErrInvalidToken`);
then the stored `expires_at` is compared with `time.Now().After`, yielding
`ErrRefreshTokenExpired` when `now` is strictly past it. -/
def GetRefreshToken (ctx : Ctx) (kv : KV) (now : Int) (token : String) :
    Except GoErr RefreshToken :=
  let tokenHash := ctx.hashToken token
  if kv.liveRevoked now tokenHash then .error .refreshTokenRevoked
  else
    match kv.liveToken now tokenHash with
    | none => .error .refreshTokenNotFound
    | some data =>
      if ctx.uuidOk data.user_id = false then .error .invalidToken
      else if now > data.expires_at then .error .refreshTokenExpired
      else .ok { UserID := data.user_id, TokenHash := tokenHash,
                 ExpiresAt := data.expires_at, CreatedAt := data.created_at,
                 RevokedAt := none }

/-- `RedisRepository.RevokeRefreshToken` (part_008): NotFound if the primary
key does not exist; otherwise a revocation marker is written with the
primary key's remaining TTL, or a 7-day fallback TTL if that is not
positive. -/
def RevokeRefreshToken (ctx : Ctx) (kv : KV) (now : Int) (token : String) :
    Except GoErr KV :=
  let tokenHash := ctx.hashToken token
  if (kv.liveToken now tokenHash).isNone then .error .refreshTokenNotFound
  else
    let ttl := kv.tokenTTL now tokenHash
    let markerExp := if 0 < ttl then now + ttl else now + 7 * 24 * 3600
    .ok { kv with revoked := setKey kv.revoked tokenHash markerExp }

/-- The marker-writing loop of `RedisRepository.RevokeAllUserTokens`: for
each member hash, read the primary key's TTL and write a marker with that
TTL, or with the 7-day fallback when the TTL is not positive.  (The loop
only writes markers, so the TTL reads are unaffected by it.) -/
def revokeHashes (kv : KV) (now : Int) : List String → KV
  | [] => kv
  | h :: rest =>
    let ttl := kv.tokenTTL now h
    let markerExp := if 0 < ttl then now + ttl else now + 7 * 24 * 3600
    revokeHashes { kv with revoked := setKey kv.revoked h markerExp } now rest

/-- `RedisRepository.RevokeAllUserTokens` (part_008:162-196): read the
owner's `user_tokens` set; nothing to do if it is empty; otherwise write a
revocation marker for every member. -/
def RevokeAllUserTokens (ctx : Ctx) (kv : KV) (now : Int) (userID : String) :
    Except GoErr KV :=
  let _ := ctx
  let tokenHashes := kv.liveMembers now userID
  if tokenHashes = [] then .ok kv
  else .ok (revokeHashes kv now tokenHashes)

/-! ## Auth service (src/internal/auth/service.go)

Collaborators that live outside the auth core (the relational user store,
the random generator, email delivery) are modelled as explicit outcome
parameters: each call site of such a collaborator takes the outcome the
collaborator would have produced. -/

/-- The fields of `user.User` the auth service reads. -/
structure User where
  ID : String
  Email : String
  EmailVerified : Bool
deriving DecidableEq

/-- `AuthTokens` (part_001): the login/refresh response. -/
structure AuthTokens where
  AccessToken : V4LocalToken
  RefreshToken : String
  TokenType : String
  ExpiresIn : Int
deriving DecidableEq

/-- The service's injected dependencies and configuration used by the
refresh path: the user repository's `GetByID` outcome, the PASETO key and
the two token durations. -/
structure ServiceEnv where
  getUserById : String → Except GoErr User
  pasetoKey : Nat
  accessDur : Int
  refreshDur : Int

/-- `Service.generateTokens` (service.go:243-276): create the access token,
store the freshly generated refresh secret (here the parameter `newSecret`,
standing for the `generateRandomToken()` result) with expiry
`now + refreshTokenDuration`, and assemble the response. -/
def generateTokens (ctx : Ctx) (env : ServiceEnv) (kv : KV) (now : Int)
    (userID : String) (email : String) (newSecret : String) :
    Except GoErr (AuthTokens × KV) :=
  let accessToken := CreateToken env.pasetoKey userID email env.accessDur now
  match StoreRefreshToken ctx kv now userID newSecret (now + env.refreshDur) with
  | .error e => .error (.wrapped "failed to store refresh token" e)
  | .ok kv2 =>
    .ok ({ AccessToken := accessToken, RefreshToken := newSecret,
           TokenType := "Bearer", ExpiresIn := env.accessDur }, kv2)

/-- `Service.RefreshAccessToken` (service.go:172-210): look the presented
secret up (NotFound becomes `ErrInvalidToken`, other repository errors are
wrapped); run the `IsValid`/`IsRevoked`/`IsExpired` checks; revoke the old
secret before issuing replacements; load the owner; generate a new pair. -/
def RefreshAccessToken (ctx : Ctx) (env : ServiceEnv) (kv : KV) (now : Int)
    (refreshToken : String) (newSecret : String) :
    Except GoErr (AuthTokens × KV) :=
  match GetRefreshToken ctx kv now refreshToken with
  | .error e =>
    if errorIs e .refreshTokenNotFound then .error .invalidToken
    else .error (.wrapped "failed to get refresh token" e)
  | .ok rt =>
    let validity : Except GoErr Unit :=
      if !rt.IsValid now then
        if rt.IsRevoked then .error .refreshTokenRevoked
        else if rt.IsExpired now then .error .refreshTokenExpired
        else .ok ()
      else .ok ()
    match validity with
    | .error e => .error e
    | .ok _ =>
      match RevokeRefreshToken ctx kv now refreshToken with
      | .error e => .error (.wrapped "failed to revoke old refresh token" e)
      | .ok kv2 =>
        match env.getUserById rt.UserID with
        | .error e => .error (.wrapped "failed to get user" e)
        | .ok u =>
          match generateTokens ctx env kv2 now u.ID u.Email newSecret with
          | .error e => .error (.wrapped "failed to generate tokens" e)
          | .ok res => .ok res

/-! ### Registration (service.go:83-135) -/

/-- The observable external calls `Register` can make. -/
inductive Effect where
  | createUser (email : GoStr)
  | sendVerificationEmail (email : GoStr)
deriving DecidableEq

/-- Outcomes of `Register`'s collaborators: `net/mail.ParseAddress` success,
password hashing, verification-token generation and `userRepo.Create`. -/
structure RegisterEnv where
  parseAddressOk : GoStr → Bool
  hashOutcome : Except GoErr GoStr
  genTokenOutcome : Except GoErr String
  createOutcome : Except GoErr User

/-- `Service.Register` (service.go:83-135): validation in source order
(empty email, byte length over 254, unparsable address, empty password,
password under 8 bytes), then hash, generate the verification token, create
the user, and dispatch the verification email asynchronously.  The second
component lists the external calls made. -/
def Register (renv : RegisterEnv) (email password : GoStr) :
    Except GoErr User × List Effect :=
  if email = [] then (.error .emailRequired, [])
  else if email.length > 254 then (.error .invalidEmailFormat, [])
  else if !renv.parseAddressOk email then (.error .invalidEmailFormat, [])
  else if password = [] then (.error .passwordRequired, [])
  else if password.length < 8 then (.error .passwordTooShort, [])
  else
    match renv.hashOutcome with
    | .error e => (.error (.wrapped "failed to hash password" e), [])
    | .ok _ =>
      match renv.genTokenOutcome with
      | .error e => (.error (.wrapped "failed to generate verification token" e), [])
      | .ok _ =>
        match renv.createOutcome with
        | .error e =>
          (if errorIs e .duplicateEmail then (.error .duplicateEmail, [.createUser email])
           else (.error (.wrapped "failed to create user" e), [.createUser email]))
        | .ok u => (.ok u, [.createUser email, .sendVerificationEmail email])

/-! ### Anti-enumeration endpoints (service.go:368-403 and 450-491) -/

/-- Outcomes of `RequestPasswordReset`'s collaborators: `GetByEmail`, token
generation, `StorePasswordResetToken` and the asynchronous email send. -/
structure PwResetEnv where
  getByEmailOutcome : Except GoErr User
  genTokenOutcome : Except GoErr String
  storeOutcome : Except GoErr Unit
  sendOutcome : Except GoErr Unit

/-- `Service.RequestPasswordReset` (service.go:368-403): every branch —
unknown email, other lookup failure, token-generation failure, store
failure, and the success path whose email send is fire-and-forget —
returns `nil`; failures are only logged. -/
def RequestPasswordReset (env : PwResetEnv) : Option GoErr :=
  match env.getByEmailOutcome with
  | .error _ => none
  | .ok _ =>
    match env.genTokenOutcome with
    | .error _ => none
    | .ok _ =>
      match env.storeOutcome with
      | .error _ => none
      | .ok _ => none

/-- Outcomes of `ResendVerificationEmail`'s collaborators. -/
structure ResendEnv where
  getByEmailOutcome : Except GoErr User
  genTokenOutcome : Except GoErr String
  updateOutcome : Except GoErr Unit
  sendOutcome : Except GoErr Unit

/-- `Service.ResendVerificationEmail` (service.go:450-491): every branch —
unknown email, other lookup failure, already-verified user,
token-generation failure, update failure, and the success path — returns
`nil`; failures are only logged. -/
def ResendVerificationEmail (env : ResendEnv) : Option GoErr :=
  match env.getByEmailOutcome with
  | .error _ => none
  | .ok u =>
    if u.EmailVerified then none
    else
      match env.genTokenOutcome with
      | .error _ => none
      | .ok _ =>
        match env.updateOutcome with
        | .error _ => none
        | .ok _ => none

/-! ## Password hashing (service.go:280-355)

`hashPassword`/`verifyPassword` are translated over byte strings.
`golang.org/x/crypto/argon2`'s `IDKey` is an external pure function; it is
taken as an explicit parameter `idKey (password) (salt) (time) (memory)
(threads) (keyLen)`.  Base64 `RawStdEncoding` (standard alphabet, no
padding) and Go's `strings.Split` on `"$"` are translated concretely. -/

/-- The argon2id cost parameters of service.go:35-40. -/
def argon2Time : Nat := 3

/-- Memory cost: 64 MiB in KiB. -/
def argon2Memory : Nat := 64 * 1024

/-- Parallelism. -/
def argon2Threads : Nat := 4

/-- Derived-key length in bytes. -/
def argon2KeyLen : Nat := 32

/-- The standard base64 alphabet (used by `base64.RawStdEncoding`). -/
def b64chars : List Char :=
  ['A','B','C','D','E','F','G','H','I','J','K','L','M',
   'N','O','P','Q','R','S','T','U','V','W','X','Y','Z',
   'a','b','c','d','e','f','g','h','i','j','k','l','m',
   'n','o','p','q','r','s','t','u','v','w','x','y','z',
   '0','1','2','3','4','5','6','7','8','9','+','/']

/-- The alphabet character of a sextet. -/
def b64char (n : Nat) : Char := b64chars.getD n 'A'

/-- The sextet of an alphabet character, if any. -/
def b64index (c : Char) : Option Nat := b64chars.findIdx? (fun x => x = c)

/-- `base64.RawStdEncoding.EncodeToString` over byte values: three bytes
become four sextets; a one- or two-byte tail becomes two or three sextets
with zero padding bits and no `=` padding. -/
def b64encode : List Nat → List Char
  | [] => []
  | [a] => [b64char (a / 4), b64char (a % 4 * 16)]
  | [a, b] => [b64char (a / 4), b64char (a % 4 * 16 + b / 16), b64char (b % 16 * 4)]
  | a :: b :: c :: rest =>
    b64char (a / 4) :: b64char (a % 4 * 16 + b / 16) ::
      b64char (b % 16 * 4 + c / 64) :: b64char (c % 64) :: b64encode rest

/-- The chunk decoder of `base64.RawStdEncoding.DecodeString` after newline
filtering: four sextets become three bytes; a two- or three-character tail
becomes one or two bytes; a tail of one character, or any character outside
the alphabet, is a decode error (RawStdEncoding is non-strict, so trailing
padding bits are not checked). -/
def b64decodeRaw : List Char → Option (List Nat)
  | [] => some []
  | [_] => none
  | [c1, c2] =>
    match b64index c1, b64index c2 with
    | some s1, some s2 => some [s1 * 4 + s2 / 16]
    | _, _ => none
  | [c1, c2, c3] =>
    match b64index c1, b64index c2, b64index c3 with
    | some s1, some s2, some s3 => some [s1 * 4 + s2 / 16, s2 % 16 * 16 + s3 / 4]
    | _, _, _ => none
  | c1 :: c2 :: c3 :: c4 :: rest =>
    match b64index c1, b64index c2, b64index c3, b64index c4, b64decodeRaw rest with
    | some s1, some s2, some s3, some s4, some bs =>
      some ((s1 * 4 + s2 / 16) :: (s2 % 16 * 16 + s3 / 4) :: (s3 % 4 * 64 + s4) :: bs)
    | _, _, _, _, _ => none

/-- `base64.RawStdEncoding.DecodeString`: Go's base64 decoder ignores `\r`
and `\n` anywhere in its input before decoding the sextet stream. -/
def b64decode (s : List Char) : Option (List Nat) :=
  b64decodeRaw (s.filter (fun c => !(decide (c = '\r') || decide (c = '\n'))))

/-- Go's `strings.Split(s, "$")`. -/
def goSplit : List Char → List (List Char)
  | [] => [[]]
  | c :: rest =>
    if c = '$' then [] :: goSplit rest
    else
      match goSplit rest with
      | [] => [[c]]
      | g :: gs => (c :: g) :: gs

/-- Match a literal prefix of the input, returning the remainder. -/
def expectChars : List Char → List Char → Option (List Char)
  | [], s => some s
  | _ :: _, [] => none
  | c :: cs, d :: ds => if d = c then expectChars cs ds else none

/-- The value of a digit string. -/
def natFromDigits (ds : List Char) : Nat :=
  ds.foldl (fun n c => n * 10 + (c.toNat - Char.toNat '0')) 0

/-- `fmt`'s scanner space set, restricted to ASCII (0x09-0x0D and 0x20).
Strings are modelled as byte lists, and the multibyte Unicode space runes
of fmt's table (U+0085, U+00A0, U+1680, ...) have no single-byte UTF-8
encoding, so no byte below 0x80 is lost by this restriction. -/
def goIsSpace (c : Char) : Bool :=
  (9 ≤ c.toNat && c.toNat ≤ 13) || c.toNat = 32

/-- `ss.SkipSpace` as `Sscanf` runs it before every `%d` verb: leading
spaces are discarded, but a newline in the input (where the format has
none) is a scan error (`"unexpected newline"`; a `\r\n` pair reaches the
same error at the `\n`). -/
def skipSpace : List Char → Option (List Char)
  | [] => some []
  | c :: rest =>
    if c = '\n' then none
    else if goIsSpace c then skipSpace rest
    else some (c :: rest)

/-- A `%d` verb scanning into an unsigned integer of width `bits`
(`ss.scanUint`): discard leading spaces, require one or more decimal
digits with no sign, and fail on overflow of the target width ("integer
overflow on token"). -/
def parseUint (bits : Nat) (s : List Char) : Option (Nat × List Char) := do
  let s1 ← skipSpace s
  let ds := s1.takeWhile Char.isDigit
  if ds = [] then none
  else
    let v := natFromDigits ds
    if v < 2 ^ bits then some (v, s1.dropWhile Char.isDigit) else none

/-- A `%d` verb scanning into a signed `int` (`ss.scanInt` with the 64-bit
word size): discard leading spaces, accept one optional `+`/`-` sign, then
one or more decimal digits, failing outside the signed 64-bit range. -/
def parseSInt (s : List Char) : Option (Int × List Char) := do
  let s1 ← skipSpace s
  let (sign, s2) : Int × List Char :=
    match s1 with
    | '+' :: r => (1, r)
    | '-' :: r => (-1, r)
    | r => (1, r)
  let ds := s2.takeWhile Char.isDigit
  if ds = [] then none
  else
    let v : Int := sign * (natFromDigits ds : Nat)
    if -(2 ^ 63) ≤ v ∧ v < 2 ^ 63 then some (v, s2.dropWhile Char.isDigit)
    else none

/-- `fmt.Sscanf(parts[3], "m=%d,t=%d,p=%d", &memory, &time, &threads)` with
`memory, time uint32` and `threads uint8`: literal format characters must
match the input exactly, each `%d` skips leading spaces, and trailing input
after the last verb is ignored. -/
def parseMemParams (s : List Char) : Option (Nat × Nat × Nat) := do
  let s1 ← expectChars ['m', '='] s
  let (memory, s2) ← parseUint 32 s1
  let s3 ← expectChars [',', 't', '='] s2
  let (time, s4) ← parseUint 32 s3
  let s5 ← expectChars [',', 'p', '='] s4
  let (threads, _) ← parseUint 8 s5
  some (memory, time, threads)

/-- `fmt.Sscanf(parts[2], "v=%d", &version)` with `version int` (signed). -/
def parseVersion (s : List Char) : Option Int := do
  let s1 ← expectChars ['v', '='] s
  let (v, _) ← parseSInt s1
  some v

/-- `crypto/subtle.ConstantTimeCompare` (Go standard library, modelled by
its documented contract): 0 if the lengths differ, else 1 exactly when the
contents are equal (the implementation ORs the bytewise XORs; constant-time
execution is a real-time property outside this model). -/
def constantTimeCompare (x y : List Nat) : Nat :=
  if x.length ≠ y.length then 0
  else if x = y then 1 else 0

/-- The type of `argon2.IDKey`:
`(password, salt, time, memory, threads, keyLen) → derived key`. -/
abbrev IDKeyFun := GoStr → List Nat → Nat → Nat → Nat → Nat → List Nat

/-- `Service.hashPassword` (service.go:280-310) with the random salt as an
explicit input: derive the key and format
`$argon2id$v=19$m=65536,t=3,p=4$<salt>$<hash>` (the `Sprintf` output with
`argon2.Version = 19` and the package cost constants). -/
def hashPassword (idKey : IDKeyFun) (salt : List Nat) (password : GoStr) : GoStr :=
  let hash := idKey password salt argon2Time argon2Memory argon2Threads argon2KeyLen
  ['$'] ++ "argon2id".data ++ ['$'] ++ "v=19".data ++ ['$'] ++
    "m=65536,t=3,p=4".data ++ ['$'] ++ b64encode salt ++ ['$'] ++ b64encode hash

/-- `Service.verifyPassword` (service.go:313-355): split on `$`, require six
segments, parse the cost parameters then the version, decode the salt and
the stored key, recompute the derivation with the stored parameters and the
stored key's length, and compare in constant time.  Every malformed-input
branch returns `false`. -/
def verifyPassword (idKey : IDKeyFun) (encodedHash : GoStr) (password : GoStr) : Bool :=
  let parts := goSplit encodedHash
  if parts.length ≠ 6 then false
  else
    match parseMemParams (parts.getD 3 []) with
    | none => false
    | some (memory, time, threads) =>
      match parseVersion (parts.getD 2 []) with
      | none => false
      | some _version =>
        match b64decode (parts.getD 4 []) with
        | none => false
        | some salt =>
          match b64decode (parts.getD 5 []) with
          | none => false
          | some decodedHash =>
            let inputHash := idKey password salt time memory threads decodedHash.length
            constantTimeCompare decodedHash inputHash = 1

/-! ## Rate limiter (src/templates/static/internal/ratelimit/ratelimit.go.tmpl)

The per-`(ip, purpose)` Redis sorted set is modelled as the list of its
members' scores together with the key's absolute expiry.  `ZADD` uses
`fmt.Sprintf("%d", now)` both as member and score, so two events in the same
Unix second are a single member. -/

/-- 15 minutes in seconds. -/
def ipRateLimitWindow : Int := 15 * 60

/-- Maximum requests per window. -/
def ipRateLimitMax : Nat := 10

/-- A `ratelimit:ip:<ip>:<purpose>` sorted set: members' scores and the
key's absolute expiry. -/
structure ZSetKey where
  scores : List Int
  expireAt : Int
deriving DecidableEq

/-- Redis lazy expiry on read: a key past its expiry reads as absent. -/
def zsetLive (s : Option ZSetKey) (now : Int) : Option ZSetKey :=
  match s with
  | some z => if now < z.expireAt then some z else none
  | none => none

/-- `Limiter.RecordIPRequestWithPurpose` (ratelimit.go.tmpl:82-103): `ZADD`
of member/score `now` (an already-present member is not duplicated), then
`EXPIRE` resetting the key's TTL to the window size. -/
def RecordIPRequestWithPurpose (s : Option ZSetKey) (now : Int) : Option ZSetKey :=
  let cur :=
    match zsetLive s now with
    | some z => z.scores
    | none => []
  let scores := if now ∈ cur then cur else cur ++ [now]
  some { scores := scores, expireAt := now + ipRateLimitWindow }

/-- `Limiter.CheckIPRateLimitWithPurpose` (ratelimit.go.tmpl:56-74):
`ZREMRANGEBYSCORE key 0 (now - window)` then `ZCARD`; exceeded when the
remaining count is at least the maximum. -/
def CheckIPRateLimitWithPurpose (s : Option ZSetKey) (now : Int) :
    Bool × Option ZSetKey :=
  let windowStart := now - ipRateLimitWindow
  match zsetLive s now with
  | none => (decide (0 ≥ ipRateLimitMax), none)
  | some z =>
    let remaining := z.scores.filter (fun t => !(decide (0 ≤ t) && decide (t ≤ windowStart)))
    (decide (remaining.length ≥ ipRateLimitMax), some { z with scores := remaining })

/-! ## Theorems -/

/-- C3: Access-token verification has exactly three outcomes and keeps them
distinguishable: `VerifyToken` returns the claims when the token is
authentic and unexpired; returns `ErrExpiredToken` when the envelope is
authentic but past its expiry; returns `ErrInvalidToken` when
authentication fails, the structure is malformed, or a required claim
(`user_id`, `email`, `iat`, `exp`) is missing; and the two error values are
distinct. -/
theorem C3_verifyToken_three_outcomes (key : Nat) (now : Int) :
    (∀ uid em ia ex, now < ex →
      VerifyToken key now (.envelope key ⟨some uid, some em, some ia, some ex⟩) =
        .ok ⟨uid, em, ia, ex⟩)
  ∧ (∀ c e, c.exp = some e → e ≤ now →
      VerifyToken key now (.envelope key c) = .error .expiredToken)
  ∧ (∀ raw, VerifyToken key now (.malformed raw) = .error .invalidToken)
  ∧ (∀ k c, k ≠ key → VerifyToken key now (.envelope k c) = .error .invalidToken)
  ∧ (∀ c e, c.exp = some e → now < e →
      (c.user_id = none ∨ c.email = none ∨ c.iat = none) →
      VerifyToken key now (.envelope key c) = .error .invalidToken)
  ∧ (∀ c, c.exp = none →
      VerifyToken key now (.envelope key c) = .error .invalidToken)
  ∧ GoErr.expiredToken ≠ GoErr.invalidToken := by
  refine ⟨?_, ?_, ?_, ?_, ?_, ?_, by decide⟩
  · intro uid em ia ex h
    simp [VerifyToken, ParseV4Local, show ¬ now ≥ ex by omega]
  · intro c e hc h
    simp [VerifyToken, ParseV4Local, hc, show now ≥ e by omega]
  · intro raw
    simp [VerifyToken, ParseV4Local]
  · intro k c hk
    simp [VerifyToken, ParseV4Local, hk]
  · intro c e hc h hmiss
    obtain ⟨u, m, i, x⟩ := c
    simp only [PasetoClaims.exp] at hc
    subst hc
    have hlt : ¬ now ≥ e := by omega
    rcases hmiss with h1 | h1 | h1
    · simp only [PasetoClaims.user_id] at h1
      subst h1
      simp [VerifyToken, ParseV4Local, hlt]
    · simp only [PasetoClaims.email] at h1
      subst h1
      cases u <;> simp [VerifyToken, ParseV4Local, hlt]
    · simp only [PasetoClaims.iat] at h1
      subst h1
      cases u <;> cases m <;> simp [VerifyToken, ParseV4Local, hlt]
  · intro c hc
    obtain ⟨u, m, i, x⟩ := c
    simp only [PasetoClaims.exp] at hc
    subst hc
    cases u <;> cases m <;> cases i <;> simp [VerifyToken, ParseV4Local]

/-- C3 witness: concrete instances of all three outcomes. -/
theorem C3_witness :
    VerifyToken 0 5 (.envelope 0 ⟨some "u", some "e", some 1, some 9⟩) =
      .ok ⟨"u", "e", 1, 9⟩
  ∧ VerifyToken 0 5 (.envelope 0 ⟨some "u", some "e", some 1, some 5⟩) =
      .error .expiredToken
  ∧ VerifyToken 0 5 (.malformed "x") = .error .invalidToken
  ∧ VerifyToken 0 5 (.envelope 0 ⟨none, some "e", some 1, some 9⟩) =
      .error .invalidToken :=
  ⟨(C3_verifyToken_three_outcomes 0 5).1 "u" "e" 1 9 (by decide),
   (C3_verifyToken_three_outcomes 0 5).2.1 ⟨some "u", some "e", some 1, some 5⟩ 5
     rfl (by decide),
   (C3_verifyToken_three_outcomes 0 5).2.2.1 "x",
   (C3_verifyToken_three_outcomes 0 5).2.2.2.2.1 ⟨none, some "e", some 1, some 9⟩ 9
     rfl (by decide) (Or.inl rfl)⟩

/-- C6: Access-token round trip: verifying the token produced by
`CreateToken userID email ttl` at a time `t` before `issuance + ttl` yields
the original `userID`/`email` together with the embedded issued-at and
expiry; verifying at `t ≥ issuance + ttl` yields the Expired outcome. -/
theorem C6_create_verify_roundtrip (key : Nat) (uid em : String)
    (dur now t : Int) (hdur : 0 < dur) :
    (t < now + dur →
      VerifyToken key t (CreateToken key uid em dur now) =
        .ok ⟨uid, em, now, now + dur⟩)
  ∧ (now + dur ≤ t →
      VerifyToken key t (CreateToken key uid em dur now) = .error .expiredToken) := by
  have _ := hdur
  constructor
  · intro h
    simp [VerifyToken, ParseV4Local, CreateToken, show ¬ t ≥ now + dur by omega]
  · intro h
    simp [VerifyToken, ParseV4Local, CreateToken, show t ≥ now + dur by omega]

/-- C6 witness: issuance at 10 with ttl 5, verified at 12 and at 15. -/
theorem C6_witness :
    (0:Int) < 5
  ∧ VerifyToken 0 12 (CreateToken 0 "u" "e" 5 10) = .ok ⟨"u", "e", 10, 15⟩
  ∧ VerifyToken 0 15 (CreateToken 0 "u" "e" 5 10) = .error .expiredToken :=
  ⟨by decide,
   (C6_create_verify_roundtrip 0 "u" "e" 5 10 12 (by decide)).1 (by decide),
   (C6_create_verify_roundtrip 0 "u" "e" 5 10 15 (by decide)).2 (by decide)⟩

/-- C2: Anti-enumeration: `RequestPasswordReset` and
`ResendVerificationEmail` return the identical success result (`nil`) for
every combination of user existence, verification state, token-store
outcome and email-dispatch outcome; two runs with different collaborator
outcomes return the same value. -/
theorem C2_anti_enumeration :
    (∀ env env' : PwResetEnv,
      RequestPasswordReset env = none
      ∧ RequestPasswordReset env = RequestPasswordReset env')
  ∧ (∀ env env' : ResendEnv,
      ResendVerificationEmail env = none
      ∧ ResendVerificationEmail env = ResendVerificationEmail env') := by
  have h1 : ∀ env : PwResetEnv, RequestPasswordReset env = none := by
    intro env
    obtain ⟨g, t, s, d⟩ := env
    cases g <;> cases t <;> cases s <;> simp [RequestPasswordReset]
  have h2 : ∀ env : ResendEnv, ResendVerificationEmail env = none := by
    intro env
    obtain ⟨g, t, u, d⟩ := env
    cases g with
    | error e => simp [ResendVerificationEmail]
    | ok usr =>
      cases t <;> cases u <;> simp [ResendVerificationEmail]
  exact ⟨fun env env' => ⟨h1 env, (h1 env).trans (h1 env').symm⟩,
         fun env env' => ⟨h2 env, (h2 env).trans (h2 env').symm⟩⟩

/-- C10: `Register` validates its inputs before any side effect: an empty
email, an over-long or unparsable email, an empty password, or a password
shorter than 8 bytes is rejected with the corresponding validation error
(in the source's check order), and in each such case no user record is
created and no verification email is dispatched (no external call list). -/
theorem C10_register_validation (renv : RegisterEnv) (email password : GoStr) :
    (email = [] →
      Register renv email password = (.error .emailRequired, []))
  ∧ (email ≠ [] → email.length > 254 →
      Register renv email password = (.error .invalidEmailFormat, []))
  ∧ (email ≠ [] → email.length ≤ 254 → renv.parseAddressOk email = false →
      Register renv email password = (.error .invalidEmailFormat, []))
  ∧ (email ≠ [] → email.length ≤ 254 → renv.parseAddressOk email = true →
      password = [] →
      Register renv email password = (.error .passwordRequired, []))
  ∧ (email ≠ [] → email.length ≤ 254 → renv.parseAddressOk email = true →
      password ≠ [] → password.length < 8 →
      Register renv email password = (.error .passwordTooShort, [])) := by
  refine ⟨?_, ?_, ?_, ?_, ?_⟩
  · intro h; simp [Register, h]
  · intro h1 h2
    simp [Register, h1, h2, show ¬ email.length ≤ 254 by omega]
  · intro h1 h2 h3
    simp [Register, h1, h3, show ¬ email.length > 254 by omega]
  · intro h1 h2 h3 h4
    simp [Register, h1, h3, h4, show ¬ email.length > 254 by omega]
  · intro h1 h2 h3 h4 h5
    simp [Register, h1, h3, h4, h5, show ¬ email.length > 254 by omega]

/-- A register environment whose address parser accepts everything. -/
def wRegEnvT : RegisterEnv :=
  { parseAddressOk := fun _ => true, hashOutcome := .ok [],
    genTokenOutcome := .ok "t", createOutcome := .ok ⟨"i", "e", false⟩ }

/-- A register environment whose address parser rejects everything. -/
def wRegEnvF : RegisterEnv :=
  { parseAddressOk := fun _ => false, hashOutcome := .ok [],
    genTokenOutcome := .ok "t", createOutcome := .ok ⟨"i", "e", false⟩ }

/-- C10 witness: each validation failure at a concrete input, with no
external calls. -/
theorem C10_witness :
    Register wRegEnvT [] ['p'] = (.error .emailRequired, [])
  ∧ Register wRegEnvT (List.replicate 255 'a') ['p'] = (.error .invalidEmailFormat, [])
  ∧ Register wRegEnvF ['a'] ['p'] = (.error .invalidEmailFormat, [])
  ∧ Register wRegEnvT ['a'] [] = (.error .passwordRequired, [])
  ∧ Register wRegEnvT ['a'] ['p'] = (.error .passwordTooShort, []) :=
  ⟨(C10_register_validation wRegEnvT [] ['p']).1 rfl,
   (C10_register_validation wRegEnvT (List.replicate 255 'a') ['p']).2.1
     (by decide) (by decide),
   (C10_register_validation wRegEnvF ['a'] ['p']).2.2.1
     (by decide) (by decide) rfl,
   (C10_register_validation wRegEnvT ['a'] []).2.2.2.1
     (by decide) (by decide) rfl rfl,
   (C10_register_validation wRegEnvT ['a'] ['p']).2.2.2.2
     (by decide) (by decide) rfl (by decide) (by decide)⟩

instance {ε α : Type} [DecidableEq ε] [DecidableEq α] : DecidableEq (Except ε α) :=
  fun a b =>
    match a, b with
    | .ok x, .ok y =>
      if h : x = y then isTrue (by rw [h]) else isFalse (by simp [h])
    | .error x, .error y =>
      if h : x = y then isTrue (by rw [h]) else isFalse (by simp [h])
    | .ok _, .error _ => isFalse (by simp)
    | .error _, .ok _ => isFalse (by simp)

/-- C4 (amended): refresh-token lookup outcome precedence.  A live
revocation marker for `hash(secret)` wins over everything, even a live or
independently expired primary record; with no marker and no live record the
lookup is NotFound; with a live record whose stored `expires_at` is
*strictly* before `now` (the code uses `time.Now().After`) the lookup is
Expired. -/
theorem C4_lookup_precedence (ctx : Ctx) (kv : KV) (now : Int) (secret : String) :
    (kv.liveRevoked now (ctx.hashToken secret) = true →
      GetRefreshToken ctx kv now secret = .error .refreshTokenRevoked)
  ∧ (kv.liveRevoked now (ctx.hashToken secret) = false →
      kv.liveToken now (ctx.hashToken secret) = none →
      GetRefreshToken ctx kv now secret = .error .refreshTokenNotFound)
  ∧ (∀ rec, kv.liveRevoked now (ctx.hashToken secret) = false →
      kv.liveToken now (ctx.hashToken secret) = some rec →
      ctx.uuidOk rec.user_id = true →
      rec.expires_at < now →
      GetRefreshToken ctx kv now secret = .error .refreshTokenExpired) := by
  refine ⟨?_, ?_, ?_⟩
  · intro h
    simp [GetRefreshToken, h]
  · intro h1 h2
    simp [GetRefreshToken, h1, h2]
  · intro rec h1 h2 h3 h4
    simp [GetRefreshToken, h1, h2, h3, show now > rec.expires_at by omega]

/-- C4 witness: a marker beats a live record; an empty store is NotFound; a
live record strictly past its stored expiry is Expired. -/
theorem C4_witness :
    GetRefreshToken ⟨fun s => s, fun _ => true⟩
      ⟨[("s", ⟨"u", 90, 0⟩, 200)], [("s", 100)], []⟩ 10 "s" =
      .error .refreshTokenRevoked
  ∧ GetRefreshToken ⟨fun s => s, fun _ => true⟩ KV.empty 10 "s" =
      .error .refreshTokenNotFound
  ∧ GetRefreshToken ⟨fun s => s, fun _ => true⟩
      ⟨[("s", ⟨"u", 5, 0⟩, 200)], [], []⟩ 10 "s" =
      .error .refreshTokenExpired :=
  ⟨(C4_lookup_precedence ⟨fun s => s, fun _ => true⟩
      ⟨[("s", ⟨"u", 90, 0⟩, 200)], [("s", 100)], []⟩ 10 "s").1 (by decide),
   (C4_lookup_precedence ⟨fun s => s, fun _ => true⟩ KV.empty 10 "s").2.1
     (by decide) (by decide),
   (C4_lookup_precedence ⟨fun s => s, fun _ => true⟩
      ⟨[("s", ⟨"u", 5, 0⟩, 200)], [], []⟩ 10 "s").2.2 ⟨"u", 5, 0⟩
     (by decide) (by decide) (by decide) (by decide)⟩

/-- C4 counterexample: the claim's third leg as stated ("record exists but
`now >= expiresAt` returns Expired") fails at the boundary `now =
expiresAt`: the code's `time.Now().After(expiresAt)` is strict, so a live
record whose stored `expires_at` equals `now` is returned as valid. -/
theorem C4_counterexample :
    KV.liveRevoked ⟨[("s", ⟨"u", 50, 0⟩, 100)], [], []⟩ 50 "s" = false
  ∧ KV.liveToken ⟨[("s", ⟨"u", 50, 0⟩, 100)], [], []⟩ 50 "s" = some ⟨"u", 50, 0⟩
  ∧ (50:Int) ≥ (50:Int)
  ∧ GetRefreshToken ⟨fun s => s, fun _ => true⟩
      ⟨[("s", ⟨"u", 50, 0⟩, 100)], [], []⟩ 50 "s" ≠
      .error .refreshTokenExpired := by
  refine ⟨by decide, by decide, by decide, by decide⟩

/-- The member scores of an optional sorted-set key. -/
def zScores : Option ZSetKey → List Int
  | some z => z.scores
  | none => []

theorem record_mem (s : Option ZSetKey) (t x : Int)
    (h : x ∈ zScores (RecordIPRequestWithPurpose s t)) :
    x ∈ zScores s ∨ x = t := by
  cases s with
  | none =>
    simp only [RecordIPRequestWithPurpose, zsetLive, zScores] at h
    simp only [List.not_mem_nil, if_false] at h
    right
    simpa using h
  | some z =>
    simp only [RecordIPRequestWithPurpose, zsetLive, zScores] at h ⊢
    by_cases hl : t < z.expireAt
    · simp only [if_pos hl] at h
      by_cases hm : t ∈ z.scores
      · simp only [if_pos hm] at h
        exact Or.inl h
      · simp only [if_neg hm, List.mem_append, List.mem_singleton] at h
        exact h
    · simp only [if_neg hl, List.not_mem_nil, if_false] at h
      right
      simpa using h

theorem foldRecord_subset :
    ∀ (ts : List Int) (s : Option ZSetKey) (x : Int),
      x ∈ zScores (ts.foldl RecordIPRequestWithPurpose s) →
      x ∈ zScores s ∨ x ∈ ts := by
  intro ts
  induction ts with
  | nil => intro s x h; exact Or.inl h
  | cons t rest ih =>
    intro s x h
    rcases ih (RecordIPRequestWithPurpose s t) x h with h1 | h1
    · rcases record_mem s t x h1 with h2 | h2
      · exact Or.inl h2
      · right; simp [h2]
    · right; simp [h1]

theorem foldRecord_build (lo : Int) :
    ∀ (rest done : List Int) (tlast : Int),
      (tlast :: rest).Pairwise (· < ·) →
      (∀ t ∈ rest, t ≤ lo + ipRateLimitWindow) →
      lo < tlast →
      (∀ d ∈ done, d ≤ tlast) →
      ∃ tl, rest.foldl RecordIPRequestWithPurpose
              (some ⟨done, tlast + ipRateLimitWindow⟩)
            = some ⟨done ++ rest, tl + ipRateLimitWindow⟩
          ∧ lo < tl ∧ ∀ d ∈ done ++ rest, d ≤ tl := by
  intro rest
  induction rest with
  | nil =>
    intro done tlast hsor hwin hlo hdone
    exact ⟨tlast, by simp, hlo, by simpa using hdone⟩
  | cons t rest2 ih =>
    intro done tlast hsor hwin hlo hdone
    rw [List.pairwise_cons] at hsor
    have hts : tlast < t := hsor.1 t (by simp)
    have hstep : RecordIPRequestWithPurpose (some ⟨done, tlast + ipRateLimitWindow⟩) t
        = some ⟨done ++ [t], t + ipRateLimitWindow⟩ := by
      have hwt : t ≤ lo + ipRateLimitWindow := hwin t (by simp)
      have hlive : t < tlast + ipRateLimitWindow := by omega
      have hnot : t ∉ done := fun hmem => absurd (hdone t hmem) (by omega)
      simp [RecordIPRequestWithPurpose, zsetLive, hlive, hnot]
    rw [List.foldl_cons, hstep]
    obtain ⟨tl, h1, h2, h3⟩ :=
      ih (done ++ [t]) t hsor.2
        (fun u hu => hwin u (by simp [hu]))
        (lt_trans hlo hts)
        (fun d hd => by
          rcases List.mem_append.1 hd with hd1 | hd1
          · exact le_of_lt (lt_of_le_of_lt (hdone d hd1) hts)
          · simp only [List.mem_singleton] at hd1
            omega)
    refine ⟨tl, ?_, h2, ?_⟩
    · rw [h1]
      simp
    · intro d hd
      apply h3 d
      simpa using hd

theorem check_eval (z : ZSetKey) (now : Int) (h : now < z.expireAt) :
    (CheckIPRateLimitWithPurpose (some z) now).1
    = decide ((z.scores.filter
        (fun t => !(decide (0 ≤ t) && decide (t ≤ now - ipRateLimitWindow)))).length
        ≥ ipRateLimitMax) := by
  simp only [CheckIPRateLimitWithPurpose, zsetLive, if_pos h]

/-- C9 counterexample: the claim as stated fails when the `max` events
share one Unix second: the sorted-set member is the second-resolution
timestamp string, so ten recordings at second 100 collapse into a single
member and an immediate check reports the limit as not exceeded. -/
theorem C9_counterexample :
    (CheckIPRateLimitWithPurpose
      ((List.replicate 10 (100:Int)).foldl RecordIPRequestWithPurpose none) 100).1
      = false := by decide

/-- C9 (amended): recording `max` events *at pairwise-distinct Unix
seconds* inside the window and checking immediately reports exceeded; and
after a full window has elapsed since the last recorded event (with
non-negative timestamps and no new events), a check reports not
exceeded. -/
theorem C9_sliding_window (ts : List Int) (now : Int)
    (hlen : ts.length = ipRateLimitMax)
    (hsor : ts.Pairwise (· < ·))
    (hwin : ∀ t ∈ ts, now - ipRateLimitWindow < t ∧ t ≤ now) :
    (CheckIPRateLimitWithPurpose
      (ts.foldl RecordIPRequestWithPurpose none) now).1 = true
  ∧ ∀ tq : Int, (∀ t ∈ ts, 0 ≤ t ∧ t + ipRateLimitWindow ≤ tq) →
      (CheckIPRateLimitWithPurpose
        (ts.foldl RecordIPRequestWithPurpose none) tq).1 = false := by
  constructor
  · match ts, hlen with
    | t0 :: rest, hlen =>
      have hstep0 : RecordIPRequestWithPurpose none t0
          = some ⟨[t0], t0 + ipRateLimitWindow⟩ := by
        simp [RecordIPRequestWithPurpose, zsetLive]
      rw [List.foldl_cons, hstep0]
      obtain ⟨tl, h1, h2, h3⟩ :=
        foldRecord_build (now - ipRateLimitWindow) rest [t0] t0 hsor
          (fun u hu => by have := hwin u (by simp [hu]); omega)
          (hwin t0 (by simp)).1
          (fun d hd => by simp only [List.mem_singleton] at hd; omega)
      rw [h1]
      have hfull : ∀ u ∈ ([t0] ++ rest),
          (!(decide (0 ≤ u) && decide (u ≤ now - ipRateLimitWindow))) = true := by
        intro u hu
        have := hwin u (by simpa using hu)
        simp only [Bool.not_eq_true', Bool.and_eq_false_iff, decide_eq_false_iff_not]
        right
        omega
      have hkeep : List.filter
          (fun t => !(decide (0 ≤ t) && decide (t ≤ now - ipRateLimitWindow)))
          ([t0] ++ rest) = [t0] ++ rest := List.filter_eq_self.mpr hfull
      rw [check_eval _ _ (by simp only [] ; omega), hkeep]
      have hlen2 : ([t0] ++ rest).length = 10 := by simpa [ipRateLimitMax] using hlen
      simp only [List.length_append, List.length_cons, List.length_nil] at hlen2
      simp [ipRateLimitMax]
      omega
  · intro tq hq
    cases hF : ts.foldl RecordIPRequestWithPurpose none with
    | none => simp [CheckIPRateLimitWithPurpose, zsetLive, ipRateLimitMax]
    | some z =>
      have hsub : ∀ x ∈ z.scores, x ∈ ts := by
        intro x hx
        have := foldRecord_subset ts none x (by simpa [hF, zScores] using hx)
        simpa [zScores] using this
      have hdrop : ∀ x ∈ z.scores,
          ¬ ((!(decide (0 ≤ x) && decide (x ≤ tq - ipRateLimitWindow))) = true) := by
        intro x hx
        have := hq x (hsub x hx)
        simp only [Bool.not_eq_true', Bool.and_eq_false_iff, decide_eq_false_iff_not]
        push_neg
        constructor <;> omega
      by_cases hl : tq < z.expireAt
      · have hnil : List.filter
            (fun t => !(decide (0 ≤ t) && decide (t ≤ tq - ipRateLimitWindow)))
            z.scores = [] := by
          rw [List.filter_eq_nil_iff]
          exact hdrop
        rw [check_eval z tq hl, hnil]
        simp [ipRateLimitMax]
      · simp [CheckIPRateLimitWithPurpose, zsetLive, if_neg hl, ipRateLimitMax]

/-- C9 witness: ten distinct seconds 1..10, checked at 10 (exceeded) and at
910 (clear). -/
theorem C9_witness :
    (CheckIPRateLimitWithPurpose
      (([1,2,3,4,5,6,7,8,9,10] : List Int).foldl RecordIPRequestWithPurpose none) 10).1
      = true
  ∧ (CheckIPRateLimitWithPurpose
      (([1,2,3,4,5,6,7,8,9,10] : List Int).foldl RecordIPRequestWithPurpose none) 910).1
      = false :=
  ⟨(C9_sliding_window [1,2,3,4,5,6,7,8,9,10] 10 (by decide) (by decide)
      (by decide)).1,
   (C9_sliding_window [1,2,3,4,5,6,7,8,9,10] 10 (by decide) (by decide)
      (by decide)).2 910 (by decide)⟩

/-- C1: Refresh-token reuse is rejected.  A refresh secret issued via
`StoreRefreshToken` and then rotated once via a successful
`RefreshAccessToken` call is afterwards always refused: while the original
secret is still inside its lifetime the replay hits the revocation marker
(the service returns its repository's Revoked error, wrapped with
"failed to get refresh token", which `errors.Is` still identifies as
Revoked); after the lifetime it is NotFound, surfaced as `ErrInvalidToken`.
In no case is a fresh access/refresh token pair returned. -/
theorem C1_refresh_reuse_rejected (ctx : Ctx) (env : ServiceEnv) (u : User)
    (uid oldSecret newSecret s2 : String)
    (t0 e0 t1 t2 : Int) (kv1 kv2 : KV) (pair : AuthTokens)
    (hstore : StoreRefreshToken ctx KV.empty t0 uid oldSecret e0 = .ok kv1)
    (hrot : RefreshAccessToken ctx env kv1 t1 oldSecret newSecret = .ok (pair, kv2))
    (h0 : t0 < e0) (h1 : t1 < e0)
    (huuid : ctx.uuidOk uid = true)
    (huser : env.getUserById uid = .ok u)
    (hdur : 0 < env.refreshDur)
    (hcoll : ctx.hashToken newSecret ≠ ctx.hashToken oldSecret)
    (ht2 : t1 ≤ t2) :
    (t2 < e0 →
      RefreshAccessToken ctx env kv2 t2 oldSecret s2 =
        .error (.wrapped "failed to get refresh token" .refreshTokenRevoked))
  ∧ (e0 ≤ t2 →
      RefreshAccessToken ctx env kv2 t2 oldSecret s2 = .error .invalidToken)
  ∧ ∀ tk kvx, RefreshAccessToken ctx env kv2 t2 oldSecret s2 ≠ .ok (tk, kvx) := by
  -- the keyspace after issuance
  have hkv1 : kv1 =
      { tokens := [(ctx.hashToken oldSecret, ⟨uid, e0, t0⟩, e0)],
        revoked := [],
        userTokens := [(uid, [ctx.hashToken oldSecret], e0)] } := by
    have h := hstore
    simp [StoreRefreshToken, KV.empty, KV.liveMembers, lookupKey, setKey,
      show ¬ e0 - t0 ≤ 0 by omega] at h
    exact h.symm
  subst hkv1
  -- the first (legitimate) rotation, step by step
  have hget : GetRefreshToken ctx
      { tokens := [(ctx.hashToken oldSecret, ⟨uid, e0, t0⟩, e0)],
        revoked := [],
        userTokens := [(uid, [ctx.hashToken oldSecret], e0)] } t1 oldSecret
      = .ok ⟨uid, ctx.hashToken oldSecret, e0, t0, none⟩ := by
    simp [GetRefreshToken, KV.liveRevoked, KV.liveToken, lookupKey, huuid,
      h1, show ¬ t1 > e0 by omega]
  have hrevoke : RevokeRefreshToken ctx
      { tokens := [(ctx.hashToken oldSecret, ⟨uid, e0, t0⟩, e0)],
        revoked := [],
        userTokens := [(uid, [ctx.hashToken oldSecret], e0)] } t1 oldSecret
      = .ok { tokens := [(ctx.hashToken oldSecret, ⟨uid, e0, t0⟩, e0)],
              revoked := [(ctx.hashToken oldSecret, t1 + (e0 - t1))],
              userTokens := [(uid, [ctx.hashToken oldSecret], e0)] } := by
    simp [RevokeRefreshToken, KV.liveToken, KV.tokenTTL, lookupKey, setKey,
      h1, show 0 < e0 - t1 by omega]
  rw [RefreshAccessToken, hget] at hrot
  simp only [RefreshToken.IsValid, RefreshToken.IsRevoked, RefreshToken.IsExpired] at hrot
  simp [show ¬ t1 > e0 by omega, hrevoke, huser, generateTokens, StoreRefreshToken,
    show ¬ t1 + env.refreshDur - t1 ≤ 0 by omega,
    show ¬ env.refreshDur ≤ 0 by omega] at hrot
  obtain ⟨hpair, hkv2⟩ := hrot
  -- facts about kv2 that the replay path reads
  have hrev2 : lookupKey kv2.revoked (ctx.hashToken oldSecret) = some e0 := by
    rw [← hkv2]
    simp [lookupKey, setKey]
  have htok2 : lookupKey kv2.tokens (ctx.hashToken oldSecret) = some (⟨uid, e0, t0⟩, e0) := by
    rw [← hkv2]
    simp [lookupKey, setKey, hcoll]
  have hA : t2 < e0 →
      RefreshAccessToken ctx env kv2 t2 oldSecret s2 =
        .error (.wrapped "failed to get refresh token" .refreshTokenRevoked) := by
    intro h
    have hget2 : GetRefreshToken ctx kv2 t2 oldSecret = .error .refreshTokenRevoked := by
      simp [GetRefreshToken, KV.liveRevoked, hrev2, h]
    rw [RefreshAccessToken, hget2]
    simp [errorIs]
  have hB : e0 ≤ t2 →
      RefreshAccessToken ctx env kv2 t2 oldSecret s2 = .error .invalidToken := by
    intro h
    have hget2 : GetRefreshToken ctx kv2 t2 oldSecret = .error .refreshTokenNotFound := by
      simp [GetRefreshToken, KV.liveRevoked, KV.liveToken, hrev2, htok2,
        show ¬ t2 < e0 by omega]
    rw [RefreshAccessToken, hget2]
    simp [errorIs]
  refine ⟨hA, hB, ?_⟩
  intro tk kvx
  by_cases h : t2 < e0
  · rw [hA h]
    simp
  · rw [hB (by omega)]
    simp

/-- A concrete context for witnesses: the identity hash and a permissive
uuid parser. -/
def wCtx : Ctx := { hashToken := fun s => s, uuidOk := fun _ => true }

/-- A concrete service environment for witnesses. -/
def wEnv : ServiceEnv :=
  { getUserById := fun i => .ok ⟨i, "e", true⟩, pasetoKey := 0,
    accessDur := 10, refreshDur := 50 }

/-- The keyspace after issuing secret "old" at time 0 expiring at 100. -/
def wKv1 : KV :=
  match StoreRefreshToken wCtx KV.empty 0 "u" "old" 100 with
  | .ok kv => kv
  | .error _ => KV.empty

/-- The result of rotating "old" into "new" at time 1. -/
def wRot : Except GoErr (AuthTokens × KV) :=
  RefreshAccessToken wCtx wEnv wKv1 1 "old" "new"

/-- The token pair of the rotation. -/
def wPair : AuthTokens :=
  match wRot with
  | .ok p => p.1
  | .error _ => ⟨.malformed "", "", "", 0⟩

/-- The keyspace after the rotation. -/
def wKv2 : KV :=
  match wRot with
  | .ok p => p.2
  | .error _ => KV.empty

/-- C1 witness: issue at 0, rotate at 1, replay "old" at 2 — the replay is
answered with the wrapped Revoked error. -/
theorem C1_witness :
    StoreRefreshToken wCtx KV.empty 0 "u" "old" 100 = .ok wKv1
  ∧ RefreshAccessToken wCtx wEnv wKv1 1 "old" "new" = .ok (wPair, wKv2)
  ∧ RefreshAccessToken wCtx wEnv wKv2 2 "old" "x" =
      .error (.wrapped "failed to get refresh token" .refreshTokenRevoked) :=
  ⟨by decide, by decide,
   (C1_refresh_reuse_rejected wCtx wEnv ⟨"u", "e", true⟩ "u" "old" "new" "x"
      0 100 1 2 wKv1 wKv2 wPair (by decide) (by decide) (by decide) (by decide)
      (by decide) (by decide) (by decide) (by decide) (by decide)).1 (by decide)⟩

/-! ### Bulk revocation (C5) -/

/-- The service's issuance pattern: a sequence of `StoreRefreshToken` calls,
each at its own time `t` with expiry `t + dur` (`generateTokens` uses
`time.Now().Add(refreshTokenDuration)`). -/
def storeAll (ctx : Ctx) (uid : String) (dur : Int) :
    KV → List (Int × String) → Except GoErr KV
  | kv, [] => .ok kv
  | kv, (t, s) :: rest =>
    match StoreRefreshToken ctx kv t uid s (t + dur) with
    | .error e => .error e
    | .ok kv2 => storeAll ctx uid dur kv2 rest

theorem lookup_setKey {α : Type} :
    ∀ (l : List (String × α)) (k q : String) (v : α),
      lookupKey (setKey l k v) q = if q = k then some v else lookupKey l q := by
  intro l
  induction l with
  | nil => intro k q v; simp [setKey, lookupKey]
  | cons p rest ih =>
    intro k q v
    obtain ⟨k2, w⟩ := p
    by_cases hk : k = k2
    · subst hk
      simp only [setKey, if_pos rfl, lookupKey]
      by_cases hq : q = k <;> simp [hq]
    · simp only [setKey, if_neg hk, lookupKey, ih]
      by_cases hq : q = k2
      · subst hq
        simp [show ¬ q = k from fun hh => hk hh.symm]
      · simp [hq]

theorem store_revoked (ctx : Ctx) (kv : KV) (now : Int) (uid token : String)
    (expiresAt : Int) (kv2 : KV)
    (h : StoreRefreshToken ctx kv now uid token expiresAt = .ok kv2) :
    kv2.revoked = kv.revoked := by
  by_cases hg : expiresAt - now ≤ 0
  · simp only [StoreRefreshToken] at h
    rw [if_pos hg] at h
    simp at h
  · simp only [StoreRefreshToken] at h
    rw [if_neg hg] at h
    simp only [Except.ok.injEq] at h
    rw [← h]

theorem storeAll_revoked (ctx : Ctx) (uid : String) (dur : Int) :
    ∀ (l : List (Int × String)) (kv kv2 : KV),
      storeAll ctx uid dur kv l = .ok kv2 → kv2.revoked = kv.revoked := by
  intro l
  induction l with
  | nil =>
    intro kv kv2 h
    simp only [storeAll, Except.ok.injEq] at h
    rw [← h]
  | cons p rest ih =>
    intro kv kv2 h
    obtain ⟨t, s⟩ := p
    simp only [storeAll] at h
    cases hs : StoreRefreshToken ctx kv t uid s (t + dur) with
    | error e =>
      simp only [hs] at h
      exact Except.noConfusion h
    | ok kvA =>
      simp only [hs] at h
      have h2 := ih kvA kv2 h
      rw [h2, store_revoked ctx kv t uid s (t + dur) kvA hs]

theorem store_facts (ctx : Ctx) (kv : KV) (now : Int) (uid token : String)
    (expiresAt : Int) (kv2 : KV)
    (hg : ¬ expiresAt - now ≤ 0)
    (h : StoreRefreshToken ctx kv now uid token expiresAt = .ok kv2) :
    kv2.tokens = setKey kv.tokens (ctx.hashToken token)
      ({ user_id := uid, expires_at := expiresAt, created_at := now },
       now + (expiresAt - now))
    ∧ kv2.userTokens = setKey kv.userTokens uid
      ((if ctx.hashToken token ∈ kv.liveMembers now uid then kv.liveMembers now uid
        else kv.liveMembers now uid ++ [ctx.hashToken token]),
       now + (expiresAt - now))
    ∧ kv2.revoked = kv.revoked := by
  simp only [StoreRefreshToken] at h
  rw [if_neg hg] at h
  simp only [Except.ok.injEq] at h
  rw [← h]
  exact ⟨rfl, rfl, rfl⟩

theorem storeAll_append (ctx : Ctx) (uid : String) (dur : Int) :
    ∀ (l1 l2 : List (Int × String)) (kv : KV),
      storeAll ctx uid dur kv (l1 ++ l2) =
        match storeAll ctx uid dur kv l1 with
        | .error e => .error e
        | .ok kvm => storeAll ctx uid dur kvm l2 := by
  intro l1
  induction l1 with
  | nil => intro l2 kv; simp [storeAll]
  | cons p rest ih =>
    intro l2 kv
    obtain ⟨t, s⟩ := p
    simp only [List.cons_append, storeAll]
    cases StoreRefreshToken ctx kv t uid s (t + dur) with
    | error e => simp
    | ok kvA => simp [ih]

theorem storeAll_post (ctx : Ctx) (uid : String) (dur ti tr : Int) (h : String)
    (hdur : 0 < dur) (hti : ti ≤ tr) (htr2 : tr < ti + dur) :
    ∀ (post : List (Int × String)) (kv : KV),
      (∀ p ∈ post, ti ≤ p.1 ∧ p.1 ≤ tr) →
      (∃ rec e, lookupKey kv.tokens h = some (rec, e)
        ∧ rec.expires_at = e ∧ ti + dur ≤ e) →
      (∃ ms eS, lookupKey kv.userTokens uid = some (ms, eS)
        ∧ h ∈ ms ∧ ti + dur ≤ eS) →
      ∀ kv2, storeAll ctx uid dur kv post = .ok kv2 →
        (∃ rec e, lookupKey kv2.tokens h = some (rec, e)
          ∧ rec.expires_at = e ∧ ti + dur ≤ e)
        ∧ (∃ ms eS, lookupKey kv2.userTokens uid = some (ms, eS)
          ∧ h ∈ ms ∧ ti + dur ≤ eS)
        ∧ kv2.revoked = kv.revoked := by
  intro post
  induction post with
  | nil =>
    intro kv _ htok hmem kv2 hrun
    simp only [storeAll, Except.ok.injEq] at hrun
    subst hrun
    exact ⟨htok, hmem, rfl⟩
  | cons p rest ih =>
    intro kv hbnd htok hmem kv2 hrun
    obtain ⟨t, s⟩ := p
    obtain ⟨hti2, htr3⟩ := hbnd (t, s) (by simp)
    obtain ⟨rec, e, hlt, hexp, hle⟩ := htok
    obtain ⟨ms, eS, hlm, hin, hleS⟩ := hmem
    simp only [storeAll] at hrun
    have hguard : ¬ t + dur - t ≤ 0 := by omega
    cases hsA : StoreRefreshToken ctx kv t uid s (t + dur) with
    | error e2 =>
      simp only [StoreRefreshToken] at hsA
      rw [if_neg hguard] at hsA
      exact Except.noConfusion hsA
    | ok kvA =>
      simp only [hsA] at hrun
      obtain ⟨hT, hU, hR⟩ := store_facts ctx kv t uid s (t + dur) kvA hguard hsA
      have hlive : kv.liveMembers t uid = ms := by
        simp [KV.liveMembers, hlm, show t < eS by omega]
      have htokA : ∃ rec e, lookupKey kvA.tokens h = some (rec, e)
          ∧ rec.expires_at = e ∧ ti + dur ≤ e := by
        by_cases hcol : h = ctx.hashToken s
        · refine ⟨{ user_id := uid, expires_at := t + dur, created_at := t },
            t + (t + dur - t), ?_, by dsimp only; omega, by omega⟩
          rw [hT, lookup_setKey]
          simp [hcol]
        · refine ⟨rec, e, ?_, hexp, hle⟩
          rw [hT, lookup_setKey]
          simp [hcol, hlt]
      have hmemA : ∃ ms2 eS2, lookupKey kvA.userTokens uid = some (ms2, eS2)
          ∧ h ∈ ms2 ∧ ti + dur ≤ eS2 := by
        refine ⟨(if ctx.hashToken s ∈ kv.liveMembers t uid then kv.liveMembers t uid
                 else kv.liveMembers t uid ++ [ctx.hashToken s]),
          t + (t + dur - t), ?_, ?_, by omega⟩
        · rw [hU, lookup_setKey]
          simp
        · rw [hlive]
          by_cases hms : ctx.hashToken s ∈ ms <;> simp [hms, hin]
      obtain ⟨o1, o2, o3⟩ :=
        ih kvA (fun q hq => hbnd q (by simp [hq])) htokA hmemA kv2 hrun
      exact ⟨o1, o2, by rw [o3, hR]⟩

/-- The marker expiry `RevokeAllUserTokens` computes for one member hash. -/
def markerOf (kv : KV) (now : Int) (h : String) : Int :=
  if 0 < kv.tokenTTL now h then now + kv.tokenTTL now h else now + 7 * 24 * 3600

theorem revokeHashes_tokens (now : Int) :
    ∀ (hs : List String) (kv : KV), (revokeHashes kv now hs).tokens = kv.tokens := by
  intro hs
  induction hs with
  | nil => intro kv; simp [revokeHashes]
  | cons h rest ih => intro kv; simp [revokeHashes, ih]

theorem revokeHashes_not_mem (now : Int) :
    ∀ (hs : List String) (kv : KV) (h : String), h ∉ hs →
      lookupKey (revokeHashes kv now hs).revoked h = lookupKey kv.revoked h := by
  intro hs
  induction hs with
  | nil => intro kv h _; simp [revokeHashes]
  | cons h2 rest ih =>
    intro kv h hmem
    simp only [List.mem_cons, not_or] at hmem
    simp only [revokeHashes]
    rw [ih _ h hmem.2]
    simp [lookup_setKey, hmem.1]

theorem revokeHashes_mem (now : Int) :
    ∀ (hs : List String) (kv : KV) (h : String), h ∈ hs →
      lookupKey (revokeHashes kv now hs).revoked h = some (markerOf kv now h) := by
  intro hs
  induction hs with
  | nil => intro kv h hmem; simp at hmem
  | cons h2 rest ih =>
    intro kv h hmem
    simp only [revokeHashes]
    by_cases hr : h ∈ rest
    · rw [ih _ h hr]
      have heq : markerOf { kv with revoked := setKey kv.revoked h2 (markerOf kv now h2) } now h
          = markerOf kv now h := by
        simp [markerOf, KV.tokenTTL]
      exact congrArg some heq
    · have hh : h = h2 := by
        rcases List.mem_cons.1 hmem with h3 | h3
        · exact h3
        · exact absurd h3 hr
      subst hh
      rw [revokeHashes_not_mem now rest _ h hr]
      simp [lookup_setKey, markerOf]

/-- C5: Bulk revocation is complete.  After a chronological sequence of
issuances for one owner (each expiring `dur` after its issue time) followed
by a successful `RevokeAllUserTokens`, every issued secret that is still
unexpired at a later query time is answered with Revoked — both by a direct
repository lookup and by the refresh endpoint (whose wrapping keeps the
error recognisable as Revoked by `errors.Is`). -/
theorem C5_bulk_revocation (ctx : Ctx) (uid : String) (dur : Int)
    (stores : List (Int × String)) (kvS kvR : KV) (tr tq ti : Int) (sec : String)
    (hdur : 0 < dur)
    (hsorted : (stores.map Prod.fst).Pairwise (· ≤ ·))
    (htr : ∀ p ∈ stores, p.1 ≤ tr)
    (hstores : storeAll ctx uid dur KV.empty stores = .ok kvS)
    (hrev : RevokeAllUserTokens ctx kvS tr uid = .ok kvR)
    (hmem : (ti, sec) ∈ stores)
    (htq : tr ≤ tq) (hunexp : tq < ti + dur) :
    GetRefreshToken ctx kvR tq sec = .error .refreshTokenRevoked
  ∧ ∀ (env : ServiceEnv) (s2 : String),
      RefreshAccessToken ctx env kvR tq sec s2 =
        .error (.wrapped "failed to get refresh token" .refreshTokenRevoked) := by
  obtain ⟨pre, post, hsplit⟩ := List.append_of_mem hmem
  have hti : ti ≤ tr := htr (ti, sec) hmem
  have htr2 : tr < ti + dur := by omega
  -- run the prefix, our store, and the suffix
  rw [hsplit, storeAll_append] at hstores
  cases hpre : storeAll ctx uid dur KV.empty pre with
  | error e => rw [hpre] at hstores; simp at hstores
  | ok kvp =>
    rw [hpre] at hstores
    simp only [storeAll] at hstores
    have hguard : ¬ ti + dur - ti ≤ 0 := by omega
    cases hsA : StoreRefreshToken ctx kvp ti uid sec (ti + dur) with
    | error e2 =>
      simp only [StoreRefreshToken] at hsA
      rw [if_neg hguard] at hsA
      exact Except.noConfusion hsA
    | ok kvA =>
    simp only [hsA] at hstores
    obtain ⟨hT, hU, hR⟩ := store_facts ctx kvp ti uid sec (ti + dur) kvA hguard hsA
    -- post-store facts about kvS
    have hposts : ∀ p ∈ post, ti ≤ p.1 ∧ p.1 ≤ tr := by
      intro p hp
      constructor
      · have hmap : (stores.map Prod.fst).Pairwise (· ≤ ·) := hsorted
        rw [hsplit] at hmap
        simp only [List.map_append, List.map_cons, List.pairwise_append] at hmap
        have := (List.pairwise_cons.1 hmap.2.1).1
        exact this p.1 (List.mem_map_of_mem Prod.fst hp)
      · exact htr p (by rw [hsplit]; simp [hp])
    have htokA : ∃ rec e, lookupKey kvA.tokens (ctx.hashToken sec) = some (rec, e)
        ∧ rec.expires_at = e ∧ ti + dur ≤ e := by
      refine ⟨{ user_id := uid, expires_at := ti + dur, created_at := ti },
        ti + (ti + dur - ti), ?_, by dsimp only; omega, by omega⟩
      rw [hT, lookup_setKey]
      simp
    have hmemA : ∃ ms eS, lookupKey kvA.userTokens uid = some (ms, eS)
        ∧ ctx.hashToken sec ∈ ms ∧ ti + dur ≤ eS := by
      refine ⟨(if ctx.hashToken sec ∈ kvp.liveMembers ti uid then kvp.liveMembers ti uid
               else kvp.liveMembers ti uid ++ [ctx.hashToken sec]),
        ti + (ti + dur - ti), ?_, ?_, by omega⟩
      · rw [hU, lookup_setKey]
        simp
      · by_cases hms : ctx.hashToken sec ∈ kvp.liveMembers ti uid <;> simp [hms]
    obtain ⟨htokS, hmemS, hrevS⟩ :=
      storeAll_post ctx uid dur ti tr (ctx.hashToken sec) hdur hti htr2 post kvA
        hposts htokA hmemA kvS hstores
    obtain ⟨rec, e, hlt, hexp, hle⟩ := htokS
    obtain ⟨ms, eS, hlm, hin, hleS⟩ := hmemS
    -- the revocation pass
    have hlive : kvS.liveMembers tr uid = ms := by
      simp [KV.liveMembers, hlm, show tr < eS by omega]
    have hne : ms ≠ [] := List.ne_nil_of_mem hin
    have hkvR : kvR = revokeHashes kvS tr ms := by
      have h := hrev
      simp only [RevokeAllUserTokens, hlive, if_neg hne, Except.ok.injEq] at h
      exact h.symm
    have hmarker : lookupKey kvR.revoked (ctx.hashToken sec) = some e := by
      rw [hkvR, revokeHashes_mem tr ms kvS _ hin]
      have httl : kvS.tokenTTL tr (ctx.hashToken sec) = e - tr := by
        simp [KV.tokenTTL, hlt, show tr < e by omega]
      simp [markerOf, httl, show 0 < e - tr by omega]
    have hget : GetRefreshToken ctx kvR tq sec = .error .refreshTokenRevoked := by
      simp [GetRefreshToken, KV.liveRevoked, hmarker, show tq < e by omega]
    refine ⟨hget, ?_⟩
    intro env s2
    rw [RefreshAccessToken, hget]
    simp [errorIs]

/-- The keyspace after issuing "a" at 0 and "b" at 1, each living 100s. -/
def wKvS : KV :=
  match storeAll wCtx "u" 100 KV.empty [(0, "a"), (1, "b")] with
  | .ok kv => kv
  | .error _ => KV.empty

/-- The keyspace after revoking all of user "u"'s tokens at time 2. -/
def wKvR : KV :=
  match RevokeAllUserTokens wCtx wKvS 2 "u" with
  | .ok kv => kv
  | .error _ => KV.empty

/-- C5 witness: two issuances, a bulk revocation, and a replay of the first
secret while it is still unexpired. -/
theorem C5_witness :
    storeAll wCtx "u" 100 KV.empty [(0, "a"), (1, "b")] = .ok wKvS
  ∧ RevokeAllUserTokens wCtx wKvS 2 "u" = .ok wKvR
  ∧ GetRefreshToken wCtx wKvR 3 "a" = .error .refreshTokenRevoked :=
  ⟨by decide, by decide,
   (C5_bulk_revocation wCtx "u" 100 [(0, "a"), (1, "b")] wKvS wKvR 2 3 0 "a"
      (by decide) (by decide) (by decide) (by decide) (by decide) (by decide)
      (by decide) (by decide)).1⟩

/-! ### Password hash round trip (C7) and fail-closed verification (C8) -/

theorem b64char_ne_dollar (s : Nat) : b64char s ≠ '$' := by
  by_cases h : s < 64
  · exact (by decide : ∀ t, t < 64 → b64char t ≠ '$') s h
  · have hle : b64chars.length ≤ s := by
      rw [show b64chars.length = 64 from rfl]
      omega
    rw [b64char, List.getD_eq_getElem?_getD, List.getElem?_eq_none hle]
    decide

theorem dec_tbl : ∀ s, s < 64 → b64index (b64char s) = some s := by decide

theorem b64encode_no_dollar : ∀ (bs : List Nat), '$' ∉ b64encode bs
  | [] => by simp [b64encode]
  | [a] => by
    intro hmem
    simp only [b64encode, List.mem_cons, List.not_mem_nil, or_false] at hmem
    rcases hmem with h | h <;> exact b64char_ne_dollar _ h.symm
  | [a, b] => by
    intro hmem
    simp only [b64encode, List.mem_cons, List.not_mem_nil, or_false] at hmem
    rcases hmem with h | h | h <;> exact b64char_ne_dollar _ h.symm
  | a :: b :: c :: rest => by
    intro hmem
    simp only [b64encode, List.mem_cons] at hmem
    rcases hmem with h | h | h | h | h
    · exact b64char_ne_dollar _ h.symm
    · exact b64char_ne_dollar _ h.symm
    · exact b64char_ne_dollar _ h.symm
    · exact b64char_ne_dollar _ h.symm
    · exact b64encode_no_dollar rest h

theorem b64decodeRaw_roundtrip : ∀ (bs : List Nat), (∀ x ∈ bs, x < 256) →
    b64decodeRaw (b64encode bs) = some bs
  | [], _ => by simp [b64encode, b64decodeRaw]
  | [a], h => by
    have ha : a < 256 := h a (by simp)
    have h1 : a / 4 < 64 := by omega
    have h2 : a % 4 * 16 < 64 := by omega
    simp [b64encode, b64decodeRaw, dec_tbl _ h1, dec_tbl _ h2]
    omega
  | [a, b], h => by
    have ha : a < 256 := h a (by simp)
    have hb : b < 256 := h b (by simp)
    have h1 : a / 4 < 64 := by omega
    have h2 : a % 4 * 16 + b / 16 < 64 := by omega
    have h3 : b % 16 * 4 < 64 := by omega
    simp [b64encode, b64decodeRaw, dec_tbl _ h1, dec_tbl _ h2, dec_tbl _ h3]
    omega
  | a :: b :: c :: rest, h => by
    have ha : a < 256 := h a (by simp)
    have hb : b < 256 := h b (by simp)
    have hc : c < 256 := h c (by simp)
    have h1 : a / 4 < 64 := by omega
    have h2 : a % 4 * 16 + b / 16 < 64 := by omega
    have h3 : b % 16 * 4 + c / 64 < 64 := by omega
    have h4 : c % 64 < 64 := by omega
    have ih := b64decodeRaw_roundtrip rest (fun x hx => h x (by simp [hx]))
    simp [b64encode, b64decodeRaw, dec_tbl _ h1, dec_tbl _ h2, dec_tbl _ h3,
      dec_tbl _ h4, ih]
    omega

theorem b64char_mem (s : Nat) : b64char s ∈ b64chars := by
  by_cases h : s < 64
  · exact (by decide : ∀ t, t < 64 → b64char t ∈ b64chars) s h
  · have hle : b64chars.length ≤ s := by
      rw [show b64chars.length = 64 from rfl]
      omega
    rw [b64char, List.getD_eq_getElem?_getD, List.getElem?_eq_none hle]
    decide

theorem b64encode_chars : ∀ (bs : List Nat), ∀ c ∈ b64encode bs, c ∈ b64chars
  | [] => by simp [b64encode]
  | [a] => by
    intro c hmem
    simp only [b64encode, List.mem_cons, List.not_mem_nil, or_false] at hmem
    rcases hmem with h | h <;> exact h ▸ b64char_mem _
  | [a, b] => by
    intro c hmem
    simp only [b64encode, List.mem_cons, List.not_mem_nil, or_false] at hmem
    rcases hmem with h | h | h <;> exact h ▸ b64char_mem _
  | a :: b :: c :: rest => by
    intro d hmem
    simp only [b64encode, List.mem_cons] at hmem
    rcases hmem with h | h | h | h | h
    · exact h ▸ b64char_mem _
    · exact h ▸ b64char_mem _
    · exact h ▸ b64char_mem _
    · exact h ▸ b64char_mem _
    · exact b64encode_chars rest d h

theorem b64encode_filter_newlines (bs : List Nat) :
    (b64encode bs).filter (fun c => !(decide (c = '\r') || decide (c = '\n')))
      = b64encode bs := by
  apply List.filter_eq_self.mpr
  intro c hc
  have hmem := b64encode_chars bs c hc
  have hr : c ≠ '\r' := fun hh => by
    rw [hh] at hmem
    exact (by decide : '\r' ∉ b64chars) hmem
  have hn : c ≠ '\n' := fun hh => by
    rw [hh] at hmem
    exact (by decide : '\n' ∉ b64chars) hmem
  simp [hr, hn]

theorem b64_roundtrip (bs : List Nat) (h : ∀ x ∈ bs, x < 256) :
    b64decode (b64encode bs) = some bs := by
  rw [b64decode, b64encode_filter_newlines, b64decodeRaw_roundtrip bs h]

theorem goSplit_cons_sep (s : List Char) : goSplit ('$' :: s) = [] :: goSplit s := by
  simp [goSplit]

theorem goSplit_no_sep : ∀ (s : List Char), '$' ∉ s → goSplit s = [s]
  | [], _ => by simp [goSplit]
  | c :: rest, h => by
    have hc : ¬ c = '$' := by
      intro hh
      exact h (by simp [hh])
    have hr : '$' ∉ rest := fun hh => h (by simp [hh])
    simp only [goSplit, if_neg hc, goSplit_no_sep rest hr]

theorem goSplit_sep_append : ∀ (xs ys : List Char), '$' ∉ xs →
    goSplit (xs ++ '$' :: ys) = xs :: goSplit ys
  | [], ys, _ => by simp [goSplit]
  | c :: xs, ys, h => by
    have hc : ¬ c = '$' := by
      intro hh
      exact h (by simp [hh])
    have hr : '$' ∉ xs := fun hh => h (by simp [hh])
    simp only [List.cons_append, goSplit, if_neg hc, List.append_eq,
      goSplit_sep_append xs ys hr]

theorem hashPassword_split (idKey : IDKeyFun) (salt : List Nat) (password : GoStr) :
    goSplit (hashPassword idKey salt password) =
      [[], "argon2id".data, "v=19".data, "m=65536,t=3,p=4".data,
       b64encode salt,
       b64encode (idKey password salt argon2Time argon2Memory argon2Threads argon2KeyLen)] := by
  have hassoc : ∀ (A B C S H : List Char),
      ['$'] ++ A ++ ['$'] ++ B ++ ['$'] ++ C ++ ['$'] ++ S ++ ['$'] ++ H =
        '$' :: (A ++ '$' :: (B ++ '$' :: (C ++ '$' :: (S ++ '$' :: H)))) := by
    intro A B C S H
    simp
  simp only [hashPassword]
  rw [hassoc, goSplit_cons_sep,
    goSplit_sep_append _ _ (by decide),
    goSplit_sep_append _ _ (by decide),
    goSplit_sep_append _ _ (by decide),
    goSplit_sep_append _ _ (b64encode_no_dollar salt),
    goSplit_no_sep _ (b64encode_no_dollar _)]

/-- C7: Password hash/verify round trip: with a fresh random salt of bytes,
verifying the freshly produced encoding against the original password
succeeds, and against `password ++ "x"` fails.  `argon2.IDKey` is an
external pure function, taken as a parameter that returns `keyLen` bytes;
the claim's second half needs exactly that the derivation of the altered
password differs at this salt (argon2 collision-freedom at this input). -/
theorem C7_hash_verify_roundtrip (idKey : IDKeyFun) (salt : List Nat) (password : GoStr)
    (hsalt : ∀ x ∈ salt, x < 256)
    (hlen : ∀ p s t m th k, (idKey p s t m th k).length = k)
    (hbytes : ∀ p s t m th k, ∀ x ∈ idKey p s t m th k, x < 256)
    (hnocoll : idKey (password ++ ['x']) salt argon2Time argon2Memory argon2Threads argon2KeyLen
      ≠ idKey password salt argon2Time argon2Memory argon2Threads argon2KeyLen) :
    verifyPassword idKey (hashPassword idKey salt password) password = true
  ∧ verifyPassword idKey (hashPassword idKey salt password) (password ++ ['x']) = false := by
  have hsplitEq := hashPassword_split idKey salt password
  have hpm : parseMemParams "m=65536,t=3,p=4".data = some (65536, 3, 4) := by decide
  have hpv : parseVersion "v=19".data = some 19 := by decide
  have hdecS : b64decode (b64encode salt) = some salt := b64_roundtrip salt hsalt
  have hdecH : b64decode (b64encode (idKey password salt 3 65536 4 32))
      = some (idKey password salt 3 65536 4 32) :=
    b64_roundtrip _ (fun x hx => hbytes password salt 3 65536 4 32 x hx)
  have hlen32 : (idKey password salt 3 65536 4 32).length = 32 :=
    hlen password salt 3 65536 4 32
  have hnc : idKey (password ++ ['x']) salt 3 65536 4 32
      ≠ idKey password salt 3 65536 4 32 := by
    simpa [argon2Time, argon2Memory, argon2Threads, argon2KeyLen] using hnocoll
  constructor
  · simp only [verifyPassword, hsplitEq]
    simp [hpm, hpv, hdecS, hdecH, hlen32, constantTimeCompare,
      argon2Time, argon2Memory, argon2Threads, argon2KeyLen]
  · simp only [verifyPassword, hsplitEq]
    simp [hpm, hpv, hdecS, hdecH, hlen32, constantTimeCompare,
      argon2Time, argon2Memory, argon2Threads, argon2KeyLen, Ne.symm hnc]

/-- The witness key-derivation function: `keyLen` copies of the password
length modulo 256. -/
def wIdKey : IDKeyFun := fun p _ _ _ _ k => List.replicate k (p.length % 256)

/-- C7 witness: password "pw" with a zero salt round-trips, and "pwx" is
rejected. -/
theorem C7_witness :
    verifyPassword wIdKey (hashPassword wIdKey (List.replicate 16 0) "pw".data)
      "pw".data = true
  ∧ verifyPassword wIdKey (hashPassword wIdKey (List.replicate 16 0) "pw".data)
      ("pw".data ++ ['x']) = false :=
  C7_hash_verify_roundtrip wIdKey (List.replicate 16 0) "pw".data
    (by decide)
    (fun p s t m th k => by simp [wIdKey])
    (fun p s t m th k x hx => by
      have h2 := List.eq_of_mem_replicate hx
      rw [h2]
      exact Nat.mod_lt _ (by decide))
    (by decide)

end GoApiTemplate
